import Mathlib

/-!
Shallow embedding of the Rasch_Bot scoring core and proofs about it.

The embedded code:
- response matrix construction (db_rasch.py, TestManager.export_test_results);
- the Rasch likelihood and probability model (FastRaschModel.py,
  FastRaschModel._calculate_log_likelihood);
- the batched estimator driver (FastRaschModel.py, FastRaschModel.fit),
  with scipy.optimize.minimize and np.random.choice treated as oracles;
- the score transformer (handlers.py, process_rasch_model): zscore based
  Ball score, proportional score, grade banding via pd.cut, binarization
  of imported response cells.

Numbers are modelled as rationals (exact decimals) and, where the source
computes with transcendental functions (exp, log, sqrt), as reals. IEEE
NaN values produced by the source (0/0 in zscore, out-of-range pd.cut)
are modelled by Option, with none playing the role of NaN.
-/

namespace RaschBot

/-! ## Response matrix construction (db_rasch.py, export_test_results)

The source iterates over the positions of one submitted answer sequence
and writes a 1/0 cell per position, guarded by the key length:

  for i in range(len(user_answers)):
      is_correct = (i < len(correct_answers)) and
                   (user_answers[i].upper() == correct_answers[i].upper())
      row[question] = 1 if is_correct else 0

The row therefore has a cell exactly for the positions of the submission;
the later frame selection reads the cells at the key positions. A position
of the key with no cell in the row is a missing value in the frame, which
we model as none. -/

/-- Python str.upper on one character of the token alphabet: the ASCII
lowercase letters 97 to 122 are shifted to uppercase, everything else is
kept. On the single-letter answer tokens of this program this is exactly
the Python behaviour. -/
def pyUpperChar (c : Char) : Char :=
  if 97 ≤ c.toNat ∧ c.toNat ≤ 122 then Char.ofNat (c.toNat - 32) else c

/-- Python str.upper of a token. -/
def pyUpper (s : String) : String := String.mk (s.data.map pyUpperChar)

/-- The is_correct test of one cell: position strictly inside the key and
case-insensitive token equality, exactly as in the source line 624. -/
def is_correct (correct_answers user_answers : List String) (i : Nat) : Bool :=
  decide (i < correct_answers.length) &&
    (pyUpper (user_answers.getD i "") == pyUpper (correct_answers.getD i ""))

/-- The numbered cells written for one person: one cell per position of the
submitted sequence (source line 622, range over len(user_answers)). -/
def userRow (correct_answers user_answers : List String) : List Nat :=
  (List.range user_answers.length).map
    (fun i => if is_correct correct_answers user_answers i then 1 else 0)

/-- The matrix entry at key position j (0-based) for one person, after the
frame is restricted to the key positions: the cell when the row has one,
none (a missing value, NaN in pandas) when the submission is shorter. -/
def exportEntry (correct_answers user_answers : List String) (j : Nat) : Option Nat :=
  (userRow correct_answers user_answers).get? j

/-! ## Grade banding (handlers.py, process_rasch_model lines 944 to 947)

  bins = [0, 46, 50, 55, 60, 65, 70, 93]
  labels = ['NC', 'C', 'C+', 'B', 'B+', 'A', 'A+']
  df['Daraja'] = pd.cut(df['Ball'], bins=bins, labels=labels, right=False)

pd.cut with right=False assigns to a value x the label of the unique
half-open interval [bins k, bins (k+1)) containing x, and a missing value
(NaN) when x lies outside every interval. With strictly ascending bins
this is the first matching interval of a left-to-right scan. -/

/-- The bin edges of the grade table (source line 945). -/
def bins : List ℚ := [0, 46, 50, 55, 60, 65, 70, 93]

/-- The grade labels of the grade table (source line 946). -/
def labels : List String := ["NC", "C", "C+", "B", "B+", "A", "A+"]

/-- pd.cut with right=False over ascending bin edges: scan the half-open
intervals in order, return the label of the first interval containing x,
none (NaN) when no interval contains x. -/
def cutScan : List ℚ → List String → ℚ → Option String
  | lo :: hi :: bs, lab :: ls, x =>
      if lo ≤ x ∧ x < hi then some lab else cutScan (hi :: bs) ls x
  | _, _, _ => none

/-- The Daraja (grade) of one Ball value (source line 947). -/
def daraja (ball : ℚ) : Option String := cutScan bins labels ball

/-! ## Binarization of imported response cells (handlers.py line 916)

  response_data = df[response_cols].applymap(lambda x: 1 if x == 1 else 0)

A cell of the imported frame is a Python value: a number, a boolean, a
string, None, or a float NaN. The comparison x == 1 follows Python
semantics: True == 1 holds (bool is an int subtype), NaN == 1 is false,
a string or None never equals 1. -/

/-- A cell value of the imported frame. -/
inductive PyVal where
  | num (q : ℚ)
  | bool (b : Bool)
  | str (s : String)
  | nan
  | pynone
  deriving DecidableEq

/-- Python comparison of a cell value with the number 1. -/
def pyEqOne : PyVal → Bool
  | PyVal.num q => q == 1
  | PyVal.bool b => b
  | PyVal.str _ => false
  | PyVal.nan => false
  | PyVal.pynone => false

/-- The applymap lambda of source line 916: 1 if x == 1 else 0. -/
def binarize (v : PyVal) : Nat := if pyEqOne v then 1 else 0

/-- applymap over the whole detected response block. -/
def binarizeMatrix (M : List (List PyVal)) : List (List Nat) :=
  M.map (fun r => r.map binarize)

/-! ## Score transformer (handlers.py, process_rasch_model lines 925 to 942)

  df['Ball'] = 50 + 10 * zscore(df['Theta'])
  df['Ball'] = np.round(df['Ball'], 2)
  df['Ball'] = df['Ball'] + np.random.uniform(-0.05, 0.05, size=len(df['Ball']))
  df['Ball'] = df['Ball'].round(decimals=2)
  ...
  theta_min = df['Theta'].min()
  theta_range = df['Theta'].max() - theta_min
  if theta_range > 0:
      df['Prop_Score'] = ((df['Theta'] - theta_min) / theta_range) * (max_possible - 65) + 65
  else:
      df['Prop_Score'] = 65

scipy.stats.zscore computes (x - mean) / std with the population standard
deviation of the cohort. When the cohort has zero variance the standard
deviation is 0 and every numerator is also 0, so every entry is the IEEE
quotient 0/0 = NaN, modelled here as none. NaN propagates through np.round
and through addition of the jitter. -/

/-- Cohort mean, as numpy computes it (defined for a nonempty cohort;
every call site passes the nonempty Theta column). -/
def mean (xs : List ℚ) : ℚ := xs.sum / xs.length

/-- Cohort population variance, the square of the standard deviation used
by scipy.stats.zscore with its default ddof = 0. -/
def popVar (xs : List ℚ) : ℚ :=
  ((xs.map (fun x => (x - mean xs) ^ 2)).sum) / xs.length

/-- scipy.stats.zscore of the cohort: (x - mean) / std entrywise, where
std = sqrt of the population variance; every entry is NaN (none) when the
standard deviation is zero, since then each numerator is zero as well and
0 / 0 is NaN. -/
noncomputable def zscore (xs : List ℚ) : List (Option ℝ) :=
  xs.map (fun (x : ℚ) =>
    if popVar xs = 0 then none
    else some (((x : ℝ) - (mean xs : ℝ)) / Real.sqrt ((popVar xs : ℝ))))

/-- np.round to 2 decimal places. -/
noncomputable def round2 (x : ℝ) : ℝ := (round (x * 100) : ℤ) / 100

/-- The Ball column: 50 + 10 * zscore, rounded, plus a per-person jitter,
rounded again (source lines 926 to 930). The jitter list is the oracle for
np.random.uniform(-0.05, 0.05, size=n). NaN entries stay NaN. -/
noncomputable def ballScores (jitter : List ℚ) (theta : List ℚ) : List (Option ℝ) :=
  let b1 := (zscore theta).map (Option.map (fun z => 50 + 10 * z))
  let b2 := b1.map (Option.map round2)
  let b3 := (b2.zip jitter).map
    (fun (p : Option ℝ × ℚ) => p.1.map (fun v => v + (p.2 : ℝ)))
  b3.map (Option.map round2)

/-- Minimum of a column, as pandas .min() on the nonempty Theta column. -/
def listMin : List ℚ → ℚ
  | [] => 0
  | x :: xs => xs.foldl min x

/-- Maximum of a column, as pandas .max() on the nonempty Theta column. -/
def listMax : List ℚ → ℚ
  | [] => 0
  | x :: xs => xs.foldl max x

/-- The Prop_Score column (source lines 937 to 942): affine rescaling of
Theta onto [65, max_possible] when the cohort has positive Theta range,
the constant 65 otherwise. -/
def propScores (max_possible : ℕ) (theta : List ℚ) : List ℚ :=
  let theta_min := listMin theta
  let theta_range := listMax theta - theta_min
  if theta_range > 0 then
    theta.map (fun t => (t - theta_min) / theta_range * ((max_possible : ℚ) - 65) + 65)
  else
    theta.map (fun _ => 65)

/-! ## Rasch likelihood (FastRaschModel.py, _calculate_log_likelihood)

  diff = theta[i] - beta[j]
  if diff > 20:      p = 1.0
  elif diff < -20:   p = 0.0
  else:              p = 1.0 / (1.0 + np.exp(-diff))
  log_lik += log(p) if X[i, j] == 1 else log(1.0 - p)
  return -log_lik
-/

/-- The modelled success probability of one (person, item) cell, with the
saturation policy of source lines 22 to 28: clip outside the open interval
(-20, 20) is exact saturation, strictly at the boundaries the exponential
is still computed. -/
noncomputable def raschP (theta_i beta_j : ℝ) : ℝ :=
  if theta_i - beta_j > 20 then 1
  else if theta_i - beta_j < -20 then 0
  else 1 / (1 + Real.exp (-(theta_i - beta_j)))

/-- The log-likelihood contribution of one cell (source lines 30 to 33). -/
noncomputable def cellLogLik (x : ℚ) (pv : ℝ) : ℝ :=
  if x = 1 then Real.log pv else Real.log (1 - pv)

/-- The negative log-likelihood of a (sub)matrix (source lines 17 to 34),
summing over every (person, item) pair of the given matrix. -/
noncomputable def calculate_log_likelihood (X : List (List ℚ)) (beta theta : List ℝ) : ℝ :=
  -(((List.range X.length).map (fun i =>
      ((List.range (X.headD []).length).map (fun j =>
        cellLogLik ((X.getD i []).getD j 0)
          (raschP (theta.getD i 0) (beta.getD j 0)))).sum)).sum)

/-! ## Batched estimator (FastRaschModel.py, FastRaschModel.fit)

The two external calls of fit are modelled as oracles:
- scipy.optimize.minimize with method L-BFGS-B is a Solver: it receives
  the objective, the starting point, the maxiter option, the gtol option
  and the bounds, and returns an OptimizeResult, of which the source reads
  the fields x and fun (the success flag of scipy is carried in the model
  but never read by fit, exactly as in the source).
- np.random.choice(n_persons, size=batch_size, replace=False) is a
  Sampler: round number to chosen index list. Its numpy contract, for the
  valid sizes 0 <= size <= n_persons, is a duplicate-free uniformly drawn
  index list of length size; that contract enters theorems as hypotheses.

The fit result is none exactly when the source would crash with an
unbound local result, which happens only when the mini-batch loop body
never runs (max_iter = 0 on the mini-batch path). -/

/-- The fields of the scipy OptimizeResult that the model tracks: the
point x, the objective value fun (here fval), and the success flag. -/
structure MinimizeResult where
  x : List ℚ
  fval : ℚ
  success : Bool
  deriving DecidableEq

/-- An objective handed to scipy: a real function of the parameter vector. -/
def Objective : Type := List ℝ → ℝ

/-- The scipy.optimize.minimize oracle: objective, start, maxiter, gtol,
bounds. -/
def Solver : Type := Objective → List ℚ → ℕ → ℚ → List (ℚ × ℚ) → MinimizeResult

/-- The np.random.choice oracle: outer round number to sampled index list. -/
def Sampler : Type := ℕ → List ℕ

/-- n_items of the response matrix (second component of X.shape). -/
def nItems (X : List (List ℚ)) : ℕ := (X.headD []).length

/-- n_persons of the response matrix (first component of X.shape). -/
def nPersons (X : List (List ℚ)) : ℕ := X.length

/-- The zero initial guess of source lines 45 to 47: beta and theta both
start at 0, concatenated. -/
def initialGuess (X : List (List ℚ)) : List ℚ :=
  List.replicate (nItems X) 0 ++ List.replicate (nPersons X) 0

/-- The box bounds of source line 49: (-5, 5) for every coordinate. -/
def raschBounds (X : List (List ℚ)) : List (ℚ × ℚ) :=
  List.replicate (nItems X) (-5, 5) ++ List.replicate (nPersons X) (-5, 5)

/-- The full-batch objective of source lines 71 to 74: split the parameter
vector into beta and theta and evaluate the likelihood on the whole
matrix. -/
noncomputable def full_neg_log_lik (X : List (List ℚ)) (params : List ℝ) : ℝ :=
  calculate_log_likelihood X (params.take (nItems X)) (params.drop (nItems X))

/-- The mini-batch objective of source lines 56 to 60: the likelihood of
the sampled rows, with the full beta and the theta entries of the sampled
persons (theta[batch_idx], rows X[batch_idx, :], in sample order). -/
noncomputable def batch_neg_log_lik (X : List (List ℚ)) (batch_idx : List ℕ)
    (params : List ℝ) : ℝ :=
  calculate_log_likelihood (batch_idx.map (fun i => X.getD i []))
    (params.take (nItems X))
    (batch_idx.map (fun i => (params.drop (nItems X)).getD i 0))

/-- The mini-batch outer loop of source lines 52 to 69, with the remaining
round count as fuel. Each round calls the solver on the batch objective of
the sampled indices, with maxiter 10 and gtol tol, starting from the
carried guess; the loop ends early when the returned objective value falls
below tol, and otherwise after the last round, in both cases handing back
the round result. none is the unbound result of a loop that never ran. -/
noncomputable def miniBatchGo (solve : Solver) (sample : Sampler)
    (X : List (List ℚ)) (tol : ℚ) : ℕ → ℕ → List ℚ → Option MinimizeResult
  | 0, _, _ => none
  | fuel + 1, k, guess =>
    let res := solve (batch_neg_log_lik X (sample k)) guess 10 tol (raschBounds X)
    if res.fval < tol then some res
    else
      match fuel with
      | 0 => some res
      | fuel' + 1 => miniBatchGo solve sample X tol (fuel' + 1) (k + 1) res.x

/-- FastRaschModel.fit (source lines 36 to 82). Returns the pair
(item_difficulty, person_ability) = (x[:n_items], x[n_items:]) of the
final solver result. The defaults of the source are max_iter = 50,
tol = 1e-3, batch_size = 2000. batch_size is an integer because the
source compares n_persons > batch_size before any other use of it. -/
noncomputable def fit (solve : Solver) (sample : Sampler) (X : List (List ℚ))
    (max_iter : ℕ) (tol : ℚ) (batch_size : ℤ) : Option (List ℚ × List ℚ) :=
  if (nPersons X : ℤ) > batch_size then
    match miniBatchGo solve sample X tol max_iter 0 (initialGuess X) with
    | none => none
    | some res => some (res.x.take (nItems X), res.x.drop (nItems X))
  else
    some
      ((solve (full_neg_log_lik X) (initialGuess X) max_iter tol (raschBounds X)).x.take
        (nItems X),
      (solve (full_neg_log_lik X) (initialGuess X) max_iter tol (raschBounds X)).x.drop
        (nItems X))

/-- The two execution paths of fit. -/
inductive FitPath where
  | fullBatch
  | miniBatch
  deriving DecidableEq

/-- The path selection of source line 51: mini-batch exactly when
n_persons > batch_size, full-batch otherwise. -/
def selectPath (n_persons : ℕ) (batch_size : ℤ) : FitPath :=
  if (n_persons : ℤ) > batch_size then FitPath.miniBatch else FitPath.fullBatch

/-- The guess entering round k of the mini-batch loop: the zero vector
before round 0, afterwards the x of the previous round result (the source
reassigns initial_guess = result.x at line 67). -/
noncomputable def guessAt (solve : Solver) (sample : Sampler) (X : List (List ℚ))
    (tol : ℚ) : ℕ → List ℚ
  | 0 => initialGuess X
  | k + 1 =>
    (solve (batch_neg_log_lik X (sample k)) (guessAt solve sample X tol k)
      10 tol (raschBounds X)).x

/-- The solver result of round k of the mini-batch loop. -/
noncomputable def roundRes (solve : Solver) (sample : Sampler) (X : List (List ℚ))
    (tol : ℚ) (k : ℕ) : MinimizeResult :=
  solve (batch_neg_log_lik X (sample k)) (guessAt solve sample X tol k)
    10 tol (raschBounds X)

/-! ## Concrete oracles used by witnesses and counterexamples -/

/-- A trivial objective, used only to write closed statements about
solver oracles. -/
def zeroObjective : Objective := fun _ => 0

/-- A solver oracle that reports the maxiter option it received: its point
is the received option value at every coordinate of the start. Used to
observe which branch of fit called it (the mini-batch branch passes 10,
the full-batch branch passes max_iter). -/
def probeSolver : Solver :=
  fun _ x0 maxiter _ _ => ⟨List.replicate x0.length (maxiter : ℚ), 0, true⟩

/-- A constant solver oracle. -/
def kSolver : Solver := fun _ _ _ _ _ => ⟨[3, 4], 0, true⟩

/-- A solver oracle that clamps the start into the box [-5, 5] and reports
an objective value of 1 (so it never meets a tolerance below 1). -/
def clampSolver : Solver :=
  fun _ x0 _ _ _ => ⟨x0.map (fun v => max (-5) (min 5 v)), 1, true⟩

/-- A solver oracle reporting success. -/
def sOkSolver : Solver := fun _ x0 _ _ _ => ⟨x0, 1, true⟩

/-- The same solver oracle reporting failure: identical x and fun, only
the success flag differs. -/
def sBadSolver : Solver := fun _ x0 _ _ _ => ⟨x0, 1, false⟩

/-- A sampler oracle returning the empty sample (np.random.choice with
size 0). -/
def zeroSampler : Sampler := fun _ => []

/-- A sampler oracle returning the single index 0 every round. -/
def oneSampler : Sampler := fun _ => [0]

/-! ## Theorems -/

/-- C1 counterexample: answer key of two items, submission of one token.
At the out-of-range key position 1 the exported entry is a missing value
(none, the NaN cell of the frame), not the 0 the claim requires, and not
a 1 either. -/
theorem C1_counterexample :
    exportEntry ["A", "B"] ["A"] 1 = none ∧
    exportEntry ["A", "B"] ["A"] 1 ≠ some 0 ∧
    exportEntry ["A", "B"] ["A"] 1 ≠ some 1 := by
  decide

/-- C1 (amended): for positions inside the submitted sequence the entry
is 1 exactly when the position is inside the key and the tokens agree
case-insensitively, and 0 otherwise (in particular 0 when the submission
is longer than the key); for positions of the key beyond the end of the
submission the entry is a missing value (none), not 0. -/
theorem C1_response_matrix_entries (ca ua : List String) (j : ℕ) :
    (j < ua.length →
      exportEntry ca ua j =
        some (if j < ca.length ∧ pyUpper (ua.getD j "") = pyUpper (ca.getD j "")
          then 1 else 0)) ∧
    (j < ua.length → j < ca.length →
      (exportEntry ca ua j = some 1 ↔
        pyUpper (ua.getD j "") = pyUpper (ca.getD j ""))) ∧
    (ua.length ≤ j → exportEntry ca ua j = none) := by
  have hin : j < ua.length →
      exportEntry ca ua j =
        some (if j < ca.length ∧ pyUpper (ua.getD j "") = pyUpper (ca.getD j "")
          then 1 else 0) := by
    intro h
    simp only [exportEntry, userRow, List.get?_map, List.get?_range h, Option.map_some]
    simp [is_correct, Bool.and_eq_true, decide_eq_true_iff]
  refine ⟨hin, ?_, ?_⟩
  · intro h hk
    rw [hin h]
    by_cases hm : pyUpper (ua.getD j "") = pyUpper (ca.getD j "")
    · rw [if_pos ⟨hk, hm⟩]
      exact iff_of_true rfl hm
    · rw [if_neg (fun hc => hm hc.2)]
      exact iff_of_false (by decide) hm
  · intro h
    simp only [exportEntry, userRow, List.get?_map]
    rw [List.get?_eq_none.mpr (by simpa using h)]
    rfl

/-- C1 witness: concrete evaluations of the amended statement. Position 0
with matching tokens of different case gives 1, position 0 with a
mismatch gives 0, and key position 2 beyond a two-token submission gives
a missing value. -/
theorem C1_response_matrix_entries_witness :
    exportEntry ["a", "B", "C"] ["A", "C", "D"] 0 = some 1 ∧
    exportEntry ["a", "B", "C"] ["A", "C", "D"] 1 = some 0 ∧
    exportEntry ["A", "B", "C"] ["a", "x"] 2 = none := by
  refine ⟨?_, ?_, ?_⟩
  · have h := (C1_response_matrix_entries ["a", "B", "C"] ["A", "C", "D"] 0).1
      (by decide)
    rw [h]; decide
  · have h := (C1_response_matrix_entries ["a", "B", "C"] ["A", "C", "D"] 1).1
      (by decide)
    rw [h]; decide
  · exact (C1_response_matrix_entries ["A", "B", "C"] ["a", "x"] 2).2.2 (by decide)

/-- C2 counterexample: a Ball value of exactly 93 receives no grade at
all. pd.cut with right=False labels only the half-open intervals up to
[70, 93), so 93 falls outside every interval and the Daraja cell is a
missing value, not the A+ the claim requires. -/
theorem C2_counterexample :
    daraja 93 = none ∧ daraja 93 ≠ some "A+" ∧ daraja 94 = none := by
  decide

/-- C2 (amended): the grades follow the ascending cut points with
half-open intervals [0,46) NC, [46,50) C, [50,55) C+, [55,60) B,
[60,65) B+, [65,70) A, [70,93) A+; a Ball value of 93 or above, and a
negative Ball value, receive no grade (a missing value). The concrete
values 45.99, 46, 69.99, 70 grade as the claim states; 93 does not. -/
theorem C2_grade_bands (x : ℚ) :
    (0 ≤ x → x < 46 → daraja x = some "NC") ∧
    (46 ≤ x → x < 50 → daraja x = some "C") ∧
    (50 ≤ x → x < 55 → daraja x = some "C+") ∧
    (55 ≤ x → x < 60 → daraja x = some "B") ∧
    (60 ≤ x → x < 65 → daraja x = some "B+") ∧
    (65 ≤ x → x < 70 → daraja x = some "A") ∧
    (70 ≤ x → x < 93 → daraja x = some "A+") ∧
    (93 ≤ x → daraja x = none) ∧
    (x < 0 → daraja x = none) ∧
    daraja 45.99 = some "NC" ∧ daraja 46 = some "C" ∧
    daraja 69.99 = some "A" ∧ daraja 70 = some "A+" := by
  have bNC : ∀ y : ℚ, 0 ≤ y → y < 46 → daraja y = some "NC" := by
    intro y h0 h1
    simp only [daraja, cutScan, bins, labels]
    rw [if_pos ⟨h0, h1⟩]
  have bC : ∀ y : ℚ, 46 ≤ y → y < 50 → daraja y = some "C" := by
    intro y h0 h1
    simp only [daraja, cutScan, bins, labels]
    rw [if_neg (by rintro ⟨-, h⟩; linarith), if_pos ⟨h0, h1⟩]
  have bCp : ∀ y : ℚ, 50 ≤ y → y < 55 → daraja y = some "C+" := by
    intro y h0 h1
    simp only [daraja, cutScan, bins, labels]
    rw [if_neg (by rintro ⟨-, h⟩; linarith), if_neg (by rintro ⟨-, h⟩; linarith),
      if_pos ⟨h0, h1⟩]
  have bB : ∀ y : ℚ, 55 ≤ y → y < 60 → daraja y = some "B" := by
    intro y h0 h1
    simp only [daraja, cutScan, bins, labels]
    rw [if_neg (by rintro ⟨-, h⟩; linarith), if_neg (by rintro ⟨-, h⟩; linarith),
      if_neg (by rintro ⟨-, h⟩; linarith), if_pos ⟨h0, h1⟩]
  have bBp : ∀ y : ℚ, 60 ≤ y → y < 65 → daraja y = some "B+" := by
    intro y h0 h1
    simp only [daraja, cutScan, bins, labels]
    rw [if_neg (by rintro ⟨-, h⟩; linarith), if_neg (by rintro ⟨-, h⟩; linarith),
      if_neg (by rintro ⟨-, h⟩; linarith), if_neg (by rintro ⟨-, h⟩; linarith),
      if_pos ⟨h0, h1⟩]
  have bA : ∀ y : ℚ, 65 ≤ y → y < 70 → daraja y = some "A" := by
    intro y h0 h1
    simp only [daraja, cutScan, bins, labels]
    rw [if_neg (by rintro ⟨-, h⟩; linarith), if_neg (by rintro ⟨-, h⟩; linarith),
      if_neg (by rintro ⟨-, h⟩; linarith), if_neg (by rintro ⟨-, h⟩; linarith),
      if_neg (by rintro ⟨-, h⟩; linarith), if_pos ⟨h0, h1⟩]
  have bAp : ∀ y : ℚ, 70 ≤ y → y < 93 → daraja y = some "A+" := by
    intro y h0 h1
    simp only [daraja, cutScan, bins, labels]
    rw [if_neg (by rintro ⟨-, h⟩; linarith), if_neg (by rintro ⟨-, h⟩; linarith),
      if_neg (by rintro ⟨-, h⟩; linarith), if_neg (by rintro ⟨-, h⟩; linarith),
      if_neg (by rintro ⟨-, h⟩; linarith), if_neg (by rintro ⟨-, h⟩; linarith),
      if_pos ⟨h0, h1⟩]
  have bHi : ∀ y : ℚ, 93 ≤ y → daraja y = none := by
    intro y h0
    simp only [daraja, cutScan, bins, labels]
    rw [if_neg (by rintro ⟨-, h⟩; linarith), if_neg (by rintro ⟨-, h⟩; linarith),
      if_neg (by rintro ⟨-, h⟩; linarith), if_neg (by rintro ⟨-, h⟩; linarith),
      if_neg (by rintro ⟨-, h⟩; linarith), if_neg (by rintro ⟨-, h⟩; linarith),
      if_neg (by rintro ⟨-, h⟩; linarith)]
  have bLo : ∀ y : ℚ, y < 0 → daraja y = none := by
    intro y h0
    simp only [daraja, cutScan, bins, labels]
    rw [if_neg (by rintro ⟨h, -⟩; linarith), if_neg (by rintro ⟨h, -⟩; linarith),
      if_neg (by rintro ⟨h, -⟩; linarith), if_neg (by rintro ⟨h, -⟩; linarith),
      if_neg (by rintro ⟨h, -⟩; linarith), if_neg (by rintro ⟨h, -⟩; linarith),
      if_neg (by rintro ⟨h, -⟩; linarith)]
  exact ⟨bNC x, bC x, bCp x, bB x, bBp x, bA x, bAp x, bHi x, bLo x,
    bNC _ (by norm_num) (by norm_num), bC _ (by norm_num) (by norm_num),
    bA _ (by norm_num) (by norm_num), bAp _ (by norm_num) (by norm_num)⟩

/-- C2 witness: concrete evaluations of the amended statement through its
band implications. -/
theorem C2_grade_bands_witness :
    daraja 45.99 = some "NC" ∧ daraja 46 = some "C" ∧ daraja 55 = some "B" ∧
    daraja 69.99 = some "A" ∧ daraja 70 = some "A+" ∧ daraja 93 = none ∧
    daraja (-1) = none := by
  refine ⟨(C2_grade_bands 45.99).2.2.2.2.2.2.2.2.2.1, (C2_grade_bands 46).2.2.2.2.2.2.2.2.2.2.1,
    (C2_grade_bands 55).2.2.2.1 (by norm_num) (by norm_num),
    (C2_grade_bands 69.99).2.2.2.2.2.2.2.2.2.2.2.1,
    (C2_grade_bands 70).2.2.2.2.2.2.2.2.2.2.2.2,
    (C2_grade_bands 93).2.2.2.2.2.2.2.1 (by norm_num),
    (C2_grade_bands (-1)).2.2.2.2.2.2.2.2.1 (by norm_num)⟩

/-- C10: every cell of the binarized response block is 0 or 1; a cell
becomes 1 exactly when it compares equal to the number 1 under Python
equality, and every other value, NaN, None, other numbers, booleans and
strings included, becomes 0. The conversion is a total function: no cell
value is rejected. -/
theorem C10_binarization (M : List (List PyVal)) (v : PyVal) (s : String) (q : ℚ) :
    (∀ row ∈ binarizeMatrix M, ∀ e ∈ row, e = 0 ∨ e = 1) ∧
    (binarize v = 1 ↔ pyEqOne v = true) ∧
    (binarize v = 0 ↔ pyEqOne v = false) ∧
    binarize (PyVal.num 1) = 1 ∧
    binarize PyVal.nan = 0 ∧
    binarize PyVal.pynone = 0 ∧
    (q ≠ 1 → binarize (PyVal.num q) = 0) ∧
    binarize (PyVal.str s) = 0 := by
  refine ⟨?_, ?_, ?_, rfl, rfl, rfl, ?_, rfl⟩
  · intro row hrow e he
    obtain ⟨r, -, rfl⟩ := List.mem_map.mp hrow
    obtain ⟨u, -, rfl⟩ := List.mem_map.mp he
    by_cases h : pyEqOne u <;> simp [binarize, h]
  · by_cases h : pyEqOne v <;> simp [binarize, h]
  · by_cases h : pyEqOne v <;> simp [binarize, h]
  · intro hq
    simp [binarize, pyEqOne, hq]

/-- C10 witness: concrete cells of every kind, evaluated through the
theorem. -/
theorem C10_binarization_witness :
    binarize (PyVal.num 1) = 1 ∧ binarize PyVal.nan = 0 ∧
    binarize PyVal.pynone = 0 ∧ binarize (PyVal.num 2) = 0 ∧
    binarize (PyVal.str "x") = 0 := by
  obtain ⟨-, -, -, h1, h2, h3, h4, h5⟩ :=
    C10_binarization [[PyVal.num 2]] (PyVal.num 1) "x" 2
  exact ⟨h1, h2, h3, h4 (by norm_num), h5⟩

/-- Folding min over copies of the initial value changes nothing. -/
theorem foldl_min_replicate (n : ℕ) (c : ℚ) :
    (List.replicate n c).foldl min c = c := by
  induction n with
  | zero => rfl
  | succ n ih => simpa [List.replicate_succ, min_self] using ih

/-- Folding max over copies of the initial value changes nothing. -/
theorem foldl_max_replicate (n : ℕ) (c : ℚ) :
    (List.replicate n c).foldl max c = c := by
  induction n with
  | zero => rfl
  | succ n ih => simpa [List.replicate_succ, max_self] using ih

/-- On a nonempty constant column, min and max are that constant. -/
theorem listMin_listMax_const (theta : List ℚ) (c : ℚ) (hne : theta ≠ [])
    (hall : ∀ t ∈ theta, t = c) : listMin theta = c ∧ listMax theta = c := by
  rcases theta with - | ⟨x, xs⟩
  · exact absurd rfl hne
  · have hx : x = c := hall x (by simp)
    have hxs : xs = List.replicate xs.length c := by
      refine List.eq_replicate_iff.mpr ⟨rfl, ?_⟩
      intro b hb
      exact hall b (by simp [hb])
    subst hx
    constructor
    · show xs.foldl min x = x
      conv_lhs => rw [hxs]
      exact foldl_min_replicate xs.length x
    · show xs.foldl max x = x
      conv_lhs => rw [hxs]
      exact foldl_max_replicate xs.length x

/-- A nonempty constant column has zero population variance. -/
theorem popVar_const (theta : List ℚ) (c : ℚ) (hne : theta ≠ [])
    (hall : ∀ t ∈ theta, t = c) : popVar theta = 0 := by
  have hrep : theta = List.replicate theta.length c :=
    List.eq_replicate_iff.mpr ⟨rfl, hall⟩
  have hn : (theta.length : ℚ) ≠ 0 := by
    exact_mod_cast (List.length_pos.mpr hne).ne'
  have hmean : mean theta = c := by
    rw [mean]
    conv_lhs => rw [hrep]
    rw [List.sum_replicate, nsmul_eq_mul]
    field_simp
  rw [popVar, hmean]
  conv_lhs => rw [hrep]
  rw [List.map_replicate]
  simp

/-- C3 counterexample: for the fitted ability vector theta = [0, 0, 0]
every Ball entry is NaN (none), because zscore of a zero-variance cohort
is the IEEE quotient 0/0; no person receives a Ball near 50. The
proportional score is 65 for everyone, as the claim also states. -/
theorem C3_counterexample :
    ballScores [0, 0, 0] [0, 0, 0] = [none, none, none] ∧
    propScores 55 [0, 0, 0] = [65, 65, 65] := by
  constructor
  · have hvar : popVar [0, 0, 0] = 0 := by norm_num [popVar, mean]
    simp [ballScores, zscore, hvar, List.zip]
  · norm_num [propScores, listMin, listMax]

/-- C3 (amended): when every fitted theta of the nonempty cohort is the
same value, every Ball entry is NaN (none) — zscore divides the zero
deviations by the zero standard deviation — while the proportional score
is exactly 65 for every person, through the theta_range = 0 branch that
avoids the division by zero. -/
theorem C3_degenerate_cohort (theta jitter : List ℚ) (c : ℚ) (mp : ℕ)
    (hne : theta ≠ []) (hall : ∀ t ∈ theta, t = c) :
    (ballScores jitter theta).all Option.isNone = true ∧
    propScores mp theta = List.replicate theta.length 65 := by
  have hvar : popVar theta = 0 := popVar_const theta c hne hall
  have hz : zscore theta = List.replicate theta.length none := by
    refine List.eq_replicate_iff.mpr ⟨by rw [zscore, List.length_map], ?_⟩
    intro b hb
    rw [zscore] at hb
    obtain ⟨x, -, rfl⟩ := List.mem_map.mp hb
    rw [if_pos hvar]
  constructor
  · rw [List.all_eq_true]
    intro b hb
    simp only [ballScores, hz, List.map_replicate, Option.map_none] at hb
    obtain ⟨b3, hb3, rfl⟩ := List.mem_map.mp hb
    obtain ⟨p, hp, rfl⟩ := List.mem_map.mp hb3
    have h1 : p.1 ∈ List.replicate theta.length (none : Option ℝ) :=
      (List.of_mem_zip hp).1
    rw [List.eq_of_mem_replicate h1]
    rfl
  · obtain ⟨hmin, hmax⟩ := listMin_listMax_const theta c hne hall
    simp only [propScores, hmin, hmax, sub_self]
    rw [if_neg (by norm_num)]
    simp

/-- C3 witness: the degenerate cohort theta = [0, 0, 0] with concrete
jitter values. -/
theorem C3_degenerate_cohort_witness :
    (ballScores [1 / 100, -1 / 100, 0] [0, 0, 0]).all Option.isNone = true ∧
    propScores 55 [0, 0, 0] = List.replicate 3 65 := by
  have h := C3_degenerate_cohort [0, 0, 0] [1 / 100, -1 / 100, 0] 0 55
    (by simp) (by simp)
  simpa using h

/-- C6: the modelled probability always lies in [0, 1]; it is exactly 1
above logit difference 20, exactly 0 below -20, the logistic value in
between, and at the clip boundaries 20 and -20 themselves the exponential
is still computed — the value there is strictly inside (0, 1), not the
saturated constant. -/
theorem C6_probability_saturation (ti bj : ℝ) :
    (0 ≤ raschP ti bj ∧ raschP ti bj ≤ 1) ∧
    (ti - bj > 20 → raschP ti bj = 1) ∧
    (ti - bj < -20 → raschP ti bj = 0) ∧
    (-20 ≤ ti - bj → ti - bj ≤ 20 →
      raschP ti bj = 1 / (1 + Real.exp (-(ti - bj)))) ∧
    (ti - bj = 20 → raschP ti bj < 1) ∧
    (ti - bj = -20 → 0 < raschP ti bj) := by
  have hep : (0 : ℝ) < Real.exp (-(ti - bj)) := Real.exp_pos _
  have hfrac0 : (0 : ℝ) < 1 / (1 + Real.exp (-(ti - bj))) := by positivity
  have hfrac1 : 1 / (1 + Real.exp (-(ti - bj))) < 1 := by
    rw [div_lt_one (by positivity)]
    linarith
  refine ⟨?_, ?_, ?_, ?_, ?_, ?_⟩
  · unfold raschP
    split_ifs with h1 h2
    · norm_num
    · norm_num
    · exact ⟨le_of_lt hfrac0, le_of_lt hfrac1⟩
  · intro h
    simp [raschP, h]
  · intro h
    have hn : ¬(ti - bj > 20) := by linarith
    simp [raschP, hn, h]
  · intro hlo hhi
    have hn1 : ¬(ti - bj > 20) := by linarith
    have hn2 : ¬(ti - bj < -20) := by linarith
    simp [raschP, hn1, hn2]
  · intro h
    have hn1 : ¬(ti - bj > 20) := by rw [h]; norm_num
    have hn2 : ¬(ti - bj < -20) := by rw [h]; norm_num
    simp only [raschP, if_neg hn1, if_neg hn2]
    exact hfrac1
  · intro h
    have hn1 : ¬(ti - bj > 20) := by rw [h]; norm_num
    have hn2 : ¬(ti - bj < -20) := by rw [h]; norm_num
    simp only [raschP, if_neg hn1, if_neg hn2]
    exact hfrac0

/-- C6 witness: concrete (theta, beta) pairs on each side of the clip and
exactly at the boundaries. -/
theorem C6_probability_saturation_witness :
    raschP 25 0 = 1 ∧ raschP 0 25 = 0 ∧
    raschP 20 0 < 1 ∧ 0 < raschP (-20) 0 ∧
    raschP 3 1 = 1 / (1 + Real.exp (-(3 - 1))) ∧ 0 ≤ raschP 3 1 := by
  refine ⟨(C6_probability_saturation 25 0).2.1 (by norm_num),
    (C6_probability_saturation 0 25).2.2.1 (by norm_num),
    (C6_probability_saturation 20 0).2.2.2.2.1 (by norm_num),
    (C6_probability_saturation (-20) 0).2.2.2.2.2 (by norm_num),
    (C6_probability_saturation 3 1).2.2.2.1 (by norm_num) (by norm_num),
    (C6_probability_saturation 3 1).1.1⟩

/-- The mini-batch loop with no remaining rounds never bound a result. -/
theorem miniBatchGo_zero (solve : Solver) (sample : Sampler)
    (X : List (List ℚ)) (tol : ℚ) (k : ℕ) (g : List ℚ) :
    miniBatchGo solve sample X tol 0 k g = none := rfl

/-- One unfolding step of the mini-batch loop. -/
theorem miniBatchGo_succ (solve : Solver) (sample : Sampler)
    (X : List (List ℚ)) (tol : ℚ) (fuel k : ℕ) (g : List ℚ) :
    miniBatchGo solve sample X tol (fuel + 1) k g =
      (if (solve (batch_neg_log_lik X (sample k)) g 10 tol (raschBounds X)).fval < tol
       then some (solve (batch_neg_log_lik X (sample k)) g 10 tol (raschBounds X))
       else
         match fuel with
         | 0 => some (solve (batch_neg_log_lik X (sample k)) g 10 tol (raschBounds X))
         | fuel' + 1 =>
           miniBatchGo solve sample X tol (fuel' + 1) (k + 1)
             (solve (batch_neg_log_lik X (sample k)) g 10 tol (raschBounds X)).x) := by
  cases fuel with
  | zero => rfl
  | succ m => rfl

/-- The mini-batch loop with at least one round always produces a result. -/
theorem miniBatchGo_isSome (solve : Solver) (sample : Sampler)
    (X : List (List ℚ)) (tol : ℚ) :
    ∀ fuel k g, 1 ≤ fuel →
      (miniBatchGo solve sample X tol fuel k g).isSome = true := by
  intro fuel
  induction fuel with
  | zero => intro k g h; exact absurd h (by omega)
  | succ n ih =>
    intro k g _
    rw [miniBatchGo_succ]
    by_cases hlt :
        (solve (batch_neg_log_lik X (sample k)) g 10 tol (raschBounds X)).fval < tol
    · rw [if_pos hlt]; rfl
    · rw [if_neg hlt]
      cases n with
      | zero => rfl
      | succ m => exact ih (k + 1) _ (by omega)

/-- Every result of the mini-batch loop keeps the length of the entering
guess, and is itself a solver output on the (-5, 5) bounds. -/
theorem miniBatchGo_some_spec (solve : Solver) (sample : Sampler)
    (X : List (List ℚ)) (tol : ℚ)
    (hlen : ∀ f x0 m g b, (solve f x0 m g b).x.length = x0.length) :
    ∀ fuel k g res, miniBatchGo solve sample X tol fuel k g = some res →
      res.x.length = g.length ∧
      ∃ k' g', res = solve (batch_neg_log_lik X (sample k')) g' 10 tol (raschBounds X) := by
  intro fuel
  induction fuel with
  | zero =>
    intro k g res h
    rw [miniBatchGo_zero] at h
    exact Option.noConfusion h
  | succ n ih =>
    intro k g res h
    rw [miniBatchGo_succ] at h
    by_cases hlt :
        (solve (batch_neg_log_lik X (sample k)) g 10 tol (raschBounds X)).fval < tol
    · rw [if_pos hlt] at h
      obtain rfl := Option.some.inj h
      exact ⟨hlen _ _ _ _ _, k, g, rfl⟩
    · rw [if_neg hlt] at h
      cases n with
      | zero =>
        obtain rfl := Option.some.inj h
        exact ⟨hlen _ _ _ _ _, k, g, rfl⟩
      | succ m =>
        obtain ⟨h1, h2⟩ := ih (k + 1) _ res h
        exact ⟨h1.trans (hlen _ _ _ _ _), h2⟩

/-- Characterization of the mini-batch loop started at round k with the
carried guess of round k: it returns the result of the first round whose
objective value falls below tol, or of the last available round, and
every earlier round had an objective value of at least tol. -/
theorem miniBatchGo_char (solve : Solver) (sample : Sampler)
    (X : List (List ℚ)) (tol : ℚ) :
    ∀ fuel k, 1 ≤ fuel →
      ∃ j, k ≤ j ∧ j < k + fuel ∧
        miniBatchGo solve sample X tol fuel k (guessAt solve sample X tol k) =
          some (roundRes solve sample X tol j) ∧
        (∀ i, k ≤ i → i < j → tol ≤ (roundRes solve sample X tol i).fval) ∧
        ((roundRes solve sample X tol j).fval < tol ∨ j = k + fuel - 1) := by
  intro fuel
  induction fuel with
  | zero => intro k h; exact absurd h (by omega)
  | succ n ih =>
    intro k _
    have hres : solve (batch_neg_log_lik X (sample k)) (guessAt solve sample X tol k)
        10 tol (raschBounds X) = roundRes solve sample X tol k := rfl
    by_cases hlt : (roundRes solve sample X tol k).fval < tol
    · refine ⟨k, le_refl k, by omega, ?_, fun i h1 h2 => absurd h2 (by omega), Or.inl hlt⟩
      rw [miniBatchGo_succ, hres, if_pos hlt]
    · cases n with
      | zero =>
        refine ⟨k, le_refl k, by omega, ?_, fun i h1 h2 => absurd h2 (by omega),
          Or.inr (by omega)⟩
        rw [miniBatchGo_succ, hres, if_neg hlt]
      | succ m =>
        obtain ⟨j, hj1, hj2, hj3, hj4, hj5⟩ := ih (k + 1) (by omega)
        have hguess : (roundRes solve sample X tol k).x =
            guessAt solve sample X tol (k + 1) := rfl
        refine ⟨j, by omega, by omega, ?_, ?_, ?_⟩
        · rw [miniBatchGo_succ, hres, if_neg hlt, hguess]
          exact hj3
        · intro i h1 h2
          by_cases hik : i = k
          · subst hik; exact le_of_not_lt hlt
          · exact hj4 i (by omega) h2
        · rcases hj5 with h | h
          · exact Or.inl h
          · exact Or.inr (by omega)

/-- Two solvers that agree on the point and objective value of every call
drive the mini-batch loop to results with the same point, whatever their
success flags do. -/
theorem miniBatchGo_agree (s1 s2 : Solver) (sample : Sampler)
    (X : List (List ℚ)) (tol : ℚ)
    (hagree : ∀ f x0 m g b, (s1 f x0 m g b).x = (s2 f x0 m g b).x ∧
      (s1 f x0 m g b).fval = (s2 f x0 m g b).fval) :
    ∀ fuel k g,
      Option.map MinimizeResult.x (miniBatchGo s1 sample X tol fuel k g) =
        Option.map MinimizeResult.x (miniBatchGo s2 sample X tol fuel k g) := by
  intro fuel
  induction fuel with
  | zero => intro k g; rfl
  | succ n ih =>
    intro k g
    rw [miniBatchGo_succ, miniBatchGo_succ]
    obtain ⟨hx, hf⟩ := hagree (batch_neg_log_lik X (sample k)) g 10 tol (raschBounds X)
    by_cases hlt :
        (s1 (batch_neg_log_lik X (sample k)) g 10 tol (raschBounds X)).fval < tol
    · rw [if_pos hlt, if_pos (hf ▸ hlt)]
      show some ((s1 (batch_neg_log_lik X (sample k)) g 10 tol (raschBounds X)).x) =
        some ((s2 (batch_neg_log_lik X (sample k)) g 10 tol (raschBounds X)).x)
      rw [hx]
    · rw [if_neg hlt, if_neg (hf ▸ hlt)]
      cases n with
      | zero =>
        show some ((s1 (batch_neg_log_lik X (sample k)) g 10 tol (raschBounds X)).x) =
          some ((s2 (batch_neg_log_lik X (sample k)) g 10 tol (raschBounds X)).x)
        rw [hx]
      | succ m =>
        show Option.map MinimizeResult.x (miniBatchGo s1 sample X tol (m + 1) (k + 1) _) =
          Option.map MinimizeResult.x (miniBatchGo s2 sample X tol (m + 1) (k + 1) _)
        rw [hx]
        exact ih (k + 1) _

/-- C7: fit runs the full-batch path exactly when n_persons is at most
batch_size and the mini-batch path exactly when n_persons exceeds it; on
the full-batch path the solver is called once on the whole matrix with
the maxiter option equal to max_iter; with the default threshold 2000,
100 persons select full-batch and 5000 persons select mini-batch. -/
theorem C7_path_selection (solve : Solver) (sample : Sampler) (X : List (List ℚ))
    (mi : ℕ) (tol : ℚ) (bs : ℤ) :
    (selectPath (nPersons X) bs = FitPath.fullBatch ↔ (nPersons X : ℤ) ≤ bs) ∧
    (selectPath (nPersons X) bs = FitPath.miniBatch ↔ (nPersons X : ℤ) > bs) ∧
    ((nPersons X : ℤ) ≤ bs →
      fit solve sample X mi tol bs =
        some ((solve (full_neg_log_lik X) (initialGuess X) mi tol (raschBounds X)).x.take
            (nItems X),
          (solve (full_neg_log_lik X) (initialGuess X) mi tol (raschBounds X)).x.drop
            (nItems X))) ∧
    ((nPersons X : ℤ) > bs →
      fit solve sample X mi tol bs =
        match miniBatchGo solve sample X tol mi 0 (initialGuess X) with
        | none => none
        | some res => some (res.x.take (nItems X), res.x.drop (nItems X))) ∧
    selectPath 100 2000 = FitPath.fullBatch ∧
    selectPath 5000 2000 = FitPath.miniBatch := by
  refine ⟨?_, ?_, ?_, ?_, by decide, by decide⟩
  · unfold selectPath
    by_cases hp : (nPersons X : ℤ) > bs
    · rw [if_pos hp]
      exact iff_of_false (by simp) (by omega)
    · rw [if_neg hp]
      exact iff_of_true rfl (by omega)
  · unfold selectPath
    by_cases hp : (nPersons X : ℤ) > bs
    · rw [if_pos hp]
      exact iff_of_true rfl hp
    · rw [if_neg hp]
      exact iff_of_false (by simp) hp
  · intro h
    unfold fit
    rw [if_neg (by omega)]
  · intro h
    unfold fit
    rw [if_pos h]

/-- C7 witness: one person against the default threshold takes the
full-batch arm (the constant solver output is sliced into the two
vectors), and the concrete 100 and 5000 person cohorts select their
paths. -/
theorem C7_path_selection_witness :
    fit kSolver zeroSampler [[1]] 50 1 2000 = some ([3], [4]) ∧
    selectPath 100 2000 = FitPath.fullBatch ∧
    selectPath 5000 2000 = FitPath.miniBatch := by
  refine ⟨?_, (C7_path_selection kSolver zeroSampler [[1]] 50 1 2000).2.2.2.2.1,
    (C7_path_selection kSolver zeroSampler [[1]] 50 1 2000).2.2.2.2.2⟩
  have h := (C7_path_selection kSolver zeroSampler [[1]] 50 1 2000).2.2.1 (by decide)
  rw [h]
  decide

/-- C4 counterexample: one person and batch_size 0. The claim requires a
fall back to full-batch mode; instead the mini-batch branch runs — the
probe solver reports the maxiter option it received, and fit returns the
mini-batch inner cap 10 rather than the full-batch max_iter 50. The same
probe under a genuine full-batch selection (batch_size 1) returns 50. -/
theorem C4_counterexample :
    selectPath 1 0 = FitPath.miniBatch ∧
    fit probeSolver zeroSampler [[1]] 50 1 0 = some ([10], [10]) ∧
    fit probeSolver zeroSampler [[1]] 50 1 1 = some ([50], [50]) := by
  refine ⟨by decide, by decide, by decide⟩

/-- C4 (amended): there is no configuration fallback. Whenever
batch_size is at most 0 (and at least one person exists), fit selects the
mini-batch path, not the full-batch path; with batch_size = 0 the run
still completes (numpy accepts size 0 and samples an empty batch, and
a negative batch_size would instead raise inside np.random.choice). A
mini-batch selection with batch_size above n_persons cannot occur, since
that configuration selects full-batch. -/
theorem C4_no_fullbatch_fallback (solve : Solver) (sample : Sampler)
    (X : List (List ℚ)) (mi : ℕ) (tol : ℚ) (bs : ℤ)
    (hbs : bs ≤ 0) (hn : 0 < nPersons X) :
    selectPath (nPersons X) bs = FitPath.miniBatch ∧
    fit solve sample X mi tol bs =
      (match miniBatchGo solve sample X tol mi 0 (initialGuess X) with
       | none => none
       | some res => some (res.x.take (nItems X), res.x.drop (nItems X))) ∧
    (bs = 0 → 1 ≤ mi → (fit solve sample X mi tol bs).isSome = true) := by
  have hp : (nPersons X : ℤ) > bs := by omega
  refine ⟨?_, ?_, ?_⟩
  · unfold selectPath
    rw [if_pos hp]
  · unfold fit
    rw [if_pos hp]
  · intro _ hmi
    unfold fit
    rw [if_pos hp]
    have h := miniBatchGo_isSome solve sample X tol mi 0 (initialGuess X) hmi
    cases h1 : miniBatchGo solve sample X tol mi 0 (initialGuess X) with
    | none => rw [h1] at h; exact absurd h (by simp)
    | some r => rfl

/-- C4 witness: batch_size 0 with one person, evaluated through the
amended statement. -/
theorem C4_no_fullbatch_fallback_witness :
    selectPath (nPersons [[1]]) 0 = FitPath.miniBatch ∧
    (fit kSolver zeroSampler [[1]] 50 1 0).isSome = true := by
  have h := C4_no_fullbatch_fallback kSolver zeroSampler [[1]] 50 1 0
    (by omega) (by decide)
  exact ⟨h.1, h.2.2 rfl (by omega)⟩

/-- C5 counterexample: two solver oracles identical in point and
objective value and differing only in the scipy success flag produce the
very same fit output — the model stores only item_difficulty and
person_ability, so no did-not-converge indicator reaches the caller. -/
theorem C5_counterexample :
    fit sOkSolver zeroSampler [[1]] 50 1 2000 =
      fit sBadSolver zeroSampler [[1]] 50 1 2000 ∧
    (sOkSolver zeroObjective [0, 0] 50 1 []).success ≠
      (sBadSolver zeroObjective [0, 0] 50 1 []).success := by
  exact ⟨rfl, by decide⟩

/-- C5 (amended): reaching the iteration cap is not an error — fit always
completes and returns the slices of the last solver point — but the
result carries no convergence indicator at all: the fit output is
invariant under the solver success flag, depending only on the reported
point and objective value. -/
theorem C5_no_convergence_indicator (s1 s2 : Solver) (sample : Sampler)
    (X : List (List ℚ)) (mi : ℕ) (tol : ℚ) (bs : ℤ)
    (hagree : ∀ f x0 m g b, (s1 f x0 m g b).x = (s2 f x0 m g b).x ∧
      (s1 f x0 m g b).fval = (s2 f x0 m g b).fval) :
    fit s1 sample X mi tol bs = fit s2 sample X mi tol bs ∧
    (1 ≤ mi → (fit s1 sample X mi tol bs).isSome = true) := by
  constructor
  · unfold fit
    by_cases hp : (nPersons X : ℤ) > bs
    · rw [if_pos hp, if_pos hp]
      have h := miniBatchGo_agree s1 s2 sample X tol hagree mi 0 (initialGuess X)
      cases h1 : miniBatchGo s1 sample X tol mi 0 (initialGuess X) with
      | none =>
        cases h2 : miniBatchGo s2 sample X tol mi 0 (initialGuess X) with
        | none => rfl
        | some r2 => rw [h1, h2] at h; exact absurd h (by simp)
      | some r1 =>
        cases h2 : miniBatchGo s2 sample X tol mi 0 (initialGuess X) with
        | none => rw [h1, h2] at h; exact absurd h (by simp)
        | some r2 =>
          rw [h1, h2] at h
          simp only [Option.map_some'] at h
          have hx : r1.x = r2.x := Option.some.inj h
          show some (r1.x.take (nItems X), r1.x.drop (nItems X)) =
            some (r2.x.take (nItems X), r2.x.drop (nItems X))
          rw [hx]
    · rw [if_neg hp, if_neg hp]
      obtain ⟨hx, -⟩ := hagree (full_neg_log_lik X) (initialGuess X) mi tol (raschBounds X)
      rw [hx]
  · intro hmi
    unfold fit
    by_cases hp : (nPersons X : ℤ) > bs
    · rw [if_pos hp]
      have h := miniBatchGo_isSome s1 sample X tol mi 0 (initialGuess X) hmi
      cases h1 : miniBatchGo s1 sample X tol mi 0 (initialGuess X) with
      | none => rw [h1] at h; exact absurd h (by simp)
      | some r => rfl
    · rw [if_neg hp]
      rfl

/-- C5 witness: the two flag-differing solver oracles on a concrete
matrix, through the amended statement. -/
theorem C5_no_convergence_indicator_witness :
    fit sOkSolver zeroSampler [[2]] 7 1 2000 =
      fit sBadSolver zeroSampler [[2]] 7 1 2000 ∧
    (fit sOkSolver zeroSampler [[2]] 7 1 2000).isSome = true := by
  have h := C5_no_convergence_indicator sOkSolver sBadSolver zeroSampler [[2]] 7 1 2000
    (fun f x0 m g b => ⟨rfl, rfl⟩)
  exact ⟨h.1, h.2 (by omega)⟩

/-- C9: for every response matrix — the all-ones and constant matrices
included — and every solver oracle that, like L-BFGS-B, keeps the point
dimension and respects the (-5, 5) box it is given, fit completes and
returns an item vector of length n_items and a person vector of length
n_persons with every entry inside [-5, 5]. -/
theorem C9_fit_shape_and_bounds (solve : Solver) (sample : Sampler)
    (X : List (List ℚ)) (mi : ℕ) (tol : ℚ) (bs : ℤ)
    (hlen : ∀ f x0 m g b, (solve f x0 m g b).x.length = x0.length)
    (hbox : ∀ f x0 m g n, ∀ v ∈ (solve f x0 m g (List.replicate n ((-5 : ℚ), 5))).x,
      -5 ≤ v ∧ v ≤ 5)
    (hmi : 1 ≤ mi) :
    ∃ beta theta, fit solve sample X mi tol bs = some (beta, theta) ∧
      beta.length = nItems X ∧ theta.length = nPersons X ∧
      (∀ v ∈ beta, -5 ≤ v ∧ v ≤ 5) ∧ (∀ v ∈ theta, -5 ≤ v ∧ v ≤ 5) := by
  have hbounds : raschBounds X = List.replicate (nItems X + nPersons X) ((-5 : ℚ), 5) := by
    rw [raschBounds, ← List.replicate_add]
  have hglen : (initialGuess X).length = nItems X + nPersons X := by
    simp [initialGuess]
  have hsplit : ∀ res : MinimizeResult,
      res.x.length = nItems X + nPersons X →
      (∀ v ∈ res.x, -5 ≤ v ∧ v ≤ 5) →
      (res.x.take (nItems X)).length = nItems X ∧
      (res.x.drop (nItems X)).length = nPersons X ∧
      (∀ v ∈ res.x.take (nItems X), -5 ≤ v ∧ v ≤ 5) ∧
      (∀ v ∈ res.x.drop (nItems X), -5 ≤ v ∧ v ≤ 5) := by
    intro res hrl hrb
    refine ⟨?_, ?_, ?_, ?_⟩
    · rw [List.length_take, hrl]
      omega
    · rw [List.length_drop, hrl]
      omega
    · intro v hv
      exact hrb v (List.mem_of_mem_take hv)
    · intro v hv
      exact hrb v (List.mem_of_mem_drop hv)
  unfold fit
  by_cases hp : (nPersons X : ℤ) > bs
  · rw [if_pos hp]
    have hs := miniBatchGo_isSome solve sample X tol mi 0 (initialGuess X) hmi
    cases h1 : miniBatchGo solve sample X tol mi 0 (initialGuess X) with
    | none => rw [h1] at hs; exact absurd hs (by simp)
    | some res =>
      obtain ⟨hrlen, k', g', hre⟩ :=
        miniBatchGo_some_spec solve sample X tol hlen mi 0 (initialGuess X) res h1
      have hrb : ∀ v ∈ res.x, -5 ≤ v ∧ v ≤ 5 := by
        intro v hv
        rw [hre, hbounds] at hv
        exact hbox _ g' 10 tol (nItems X + nPersons X) v hv
      obtain ⟨l1, l2, b1, b2⟩ := hsplit res (hrlen.trans hglen) hrb
      exact ⟨res.x.take (nItems X), res.x.drop (nItems X), rfl, l1, l2, b1, b2⟩
  · rw [if_neg hp]
    have hrl : (solve (full_neg_log_lik X) (initialGuess X) mi tol (raschBounds X)).x.length =
        nItems X + nPersons X := (hlen _ _ _ _ _).trans hglen
    have hrb : ∀ v ∈ (solve (full_neg_log_lik X) (initialGuess X) mi tol (raschBounds X)).x,
        -5 ≤ v ∧ v ≤ 5 := by
      intro v hv
      rw [hbounds] at hv
      exact hbox _ (initialGuess X) mi tol (nItems X + nPersons X) v hv
    obtain ⟨l1, l2, b1, b2⟩ := hsplit _ hrl hrb
    exact ⟨_, _, rfl, l1, l2, b1, b2⟩

/-- C9 witness: an all-identical 2 by 2 matrix under the clamping solver
oracle, through the theorem. -/
theorem C9_fit_shape_and_bounds_witness :
    ∃ beta theta, fit clampSolver zeroSampler [[1, 1], [1, 1]] 50 1 2000 =
        some (beta, theta) ∧
      beta.length = nItems [[1, 1], [1, 1]] ∧
      theta.length = nPersons [[1, 1], [1, 1]] ∧
      (∀ v ∈ beta, -5 ≤ v ∧ v ≤ 5) ∧ (∀ v ∈ theta, -5 ≤ v ∧ v ≤ 5) := by
  refine C9_fit_shape_and_bounds clampSolver zeroSampler [[1, 1], [1, 1]] 50 1 2000
    ?_ ?_ (by omega)
  · intro f x0 m g b
    simp [clampSolver]
  · intro f x0 m g n v hv
    simp only [clampSolver] at hv
    obtain ⟨u, -, rfl⟩ := List.mem_map.mp hv
    exact ⟨le_max_left _ _, max_le (by norm_num) (min_le_left _ _)⟩

/-- C8: on the mini-batch path (n_persons above batch_size, at least one
round, a sampler honouring the np.random.choice contract of batch_size
distinct indices below n_persons), fit returns the slices of the round
result of some round m below max_iter, where each round result is the
solver output on the batch objective of that round with inner cap 10,
started from the carried point of the previous round; every round before
m had objective value at least tol, and round m either fell below tol or
was the last round. -/
theorem C8_minibatch_characterization (solve : Solver) (sample : Sampler)
    (X : List (List ℚ)) (mi : ℕ) (tol : ℚ) (bs : ℤ)
    (hpath : (nPersons X : ℤ) > bs) (hmi : 1 ≤ mi)
    (hsample : ∀ k, (sample k).length = bs.toNat ∧ (sample k).Nodup ∧
      ∀ i ∈ sample k, i < nPersons X) :
    ∃ m, m < mi ∧
      fit solve sample X mi tol bs =
        some ((roundRes solve sample X tol m).x.take (nItems X),
          (roundRes solve sample X tol m).x.drop (nItems X)) ∧
      (∀ i, i < m → tol ≤ (roundRes solve sample X tol i).fval) ∧
      ((roundRes solve sample X tol m).fval < tol ∨ m = mi - 1) := by
  obtain ⟨j, hj1, hj2, hj3, hj4, hj5⟩ := miniBatchGo_char solve sample X tol mi 0 hmi
  have hg0 : guessAt solve sample X tol 0 = initialGuess X := rfl
  rw [hg0] at hj3
  refine ⟨j, by omega, ?_, ?_, ?_⟩
  · unfold fit
    rw [if_pos hpath, hj3]
  · intro i hi
    exact hj4 i (by omega) hi
  · rcases hj5 with h | h
    · exact Or.inl h
    · exact Or.inr (by omega)

/-- C8 witness: two persons, batch_size 1, three rounds, the single-index
sampler and the constant solver, through the theorem. -/
theorem C8_minibatch_characterization_witness :
    ∃ m, m < 3 ∧
      fit kSolver oneSampler [[1], [0]] 3 1 1 =
        some ((roundRes kSolver oneSampler [[1], [0]] 1 m).x.take (nItems [[1], [0]]),
          (roundRes kSolver oneSampler [[1], [0]] 1 m).x.drop (nItems [[1], [0]])) ∧
      (∀ i, i < m → 1 ≤ (roundRes kSolver oneSampler [[1], [0]] 1 i).fval) ∧
      ((roundRes kSolver oneSampler [[1], [0]] 1 m).fval < 1 ∨ m = 3 - 1) := by
  refine C8_minibatch_characterization kSolver oneSampler [[1], [0]] 3 1 1
    (by decide) (by omega) ?_
  intro k
  refine ⟨rfl, ?_, ?_⟩
  · show ([0] : List ℕ).Nodup
    decide
  · show ∀ i ∈ ([0] : List ℕ), i < nPersons [[1], [0]]
    decide

end RaschBot
